import Mathlib

/-!
Shallow embedding of `src/Ramdan_Coding_Night_11/Personal-Library-Manager/main.py`
(the Library Store component: class `Book` and class `LibraryManager`).

Modelling conventions:
* Python strings are Lean `String`; `str.lower()` is `toLower` (per-character
  lowercasing, adequate for the ASCII data handled here).
* Python `in` on strings (substring test) is `strHasSub`.
* `rating` (a Python float) is modelled as `Option ℚ`; `publication_year` and
  `pages` (Python `Optional[int]`) as `Option Int`.
* The JSON backing file is modelled by `FileState`: `absent` (no file),
  `invalid` (bytes that fail JSON parsing, i.e. `json.load` raises
  `JSONDecodeError`), or `valid v` with `v : JsonVal` the parsed document.
* Python exceptions are `Except Unit`; a `.error ()` outcome of `load_library`
  models an exception escaping `LibraryManager.__init__` uncaught.
* In-place mutation of a `Book` found by `get_book_by_title` is modelled by
  state passing: `findIdxCI` locates the first case-insensitive title match and
  `updateAt` rewrites that list position.
-/

/-- Per-character lowercasing, modelling Python `str.lower()`. -/
def toLower (s : String) : String := String.mk (s.data.map Char.toLower)

/-- `listStartsWith hay needle`: `needle` is a leading segment of `hay`. -/
def listStartsWith : List Char → List Char → Bool
  | _, [] => true
  | [], _ :: _ => false
  | a :: as, b :: bs => a == b && listStartsWith as bs

/-- `listHasSub hay needle`: `needle` occurs contiguously inside `hay`
(Python `needle in hay` on strings). -/
def listHasSub : List Char → List Char → Bool
  | [], needle => needle.isEmpty
  | h :: t, needle => listStartsWith (h :: t) needle || listHasSub t needle

/-- String-level contiguous-substring test: Python `sub in s`. -/
def strHasSub (s sub : String) : Bool := listHasSub s.data sub.data

/-- The `Book` record of `main.py` (field order as in `Book.__init__`). -/
structure Book where
  title : String
  author : String
  isbn : String
  genre : String
  publication_year : Option Int
  publisher : String
  pages : Option Int
  status : String
  date_added : String
  rating : Option ℚ
  notes : String
deriving DecidableEq

/-- `Book.__init__`: every field is stored as given, except `date_added`,
which is `date_added or now` in Python (`None` and `""` are falsy, so both
fall back to the current-date string `now`).  Note that a rating of 0 is NOT
normalized here: `self.rating = rating` stores it verbatim. -/
def Book.init (now title author isbn genre : String) (publication_year : Option Int)
    (publisher : String) (pages : Option Int) (status : String)
    (date_added : Option String) (rating : Option ℚ) (notes : String) : Book :=
  ⟨title, author, isbn, genre, publication_year, publisher, pages, status,
    (match date_added with
     | some s => if s = "" then now else s
     | none => now),
    rating, notes⟩

/-- A parsed JSON document (what Python `json.load` can return). -/
inductive JsonVal where
  | jnull
  | jbool (b : Bool)
  | jint (n : Int)
  | jnum (q : ℚ)
  | jstr (s : String)
  | jarr (elems : List JsonVal)
  | jobj (fields : List (String × JsonVal))

/-- `Book.to_dict`: all eleven keys are always emitted, in source order;
absent optional values become JSON `null`. -/
def to_dictJ (b : Book) : JsonVal :=
  .jobj [("title", .jstr b.title),
         ("author", .jstr b.author),
         ("isbn", .jstr b.isbn),
         ("genre", .jstr b.genre),
         ("publication_year", match b.publication_year with
           | some n => .jint n
           | none => .jnull),
         ("publisher", .jstr b.publisher),
         ("pages", match b.pages with
           | some n => .jint n
           | none => .jnull),
         ("status", .jstr b.status),
         ("date_added", .jstr b.date_added),
         ("rating", match b.rating with
           | some q => .jnum q
           | none => .jnull),
         ("notes", .jstr b.notes)]

/-- The keyword parameters accepted by `Book.__init__` (any other key in
`cls(**data)` raises `TypeError`). -/
def validKeys : List String :=
  ["title", "author", "isbn", "genre", "publication_year", "publisher",
   "pages", "status", "date_added", "rating", "notes"]

/-- First value stored under key `k` (Python-parsed JSON objects have
unique keys). -/
def jLookup (fields : List (String × JsonVal)) (k : String) : Option JsonVal :=
  (fields.find? (fun kv => kv.1 == k)).map (·.2)

/-- Required string field: missing key is Python's missing-positional-argument
`TypeError`.  We additionally require the value to be a string, restricting the
model to well-typed records (Python itself defers value-type errors to first
use). -/
def jReqStr (fields : List (String × JsonVal)) (k : String) : Except Unit String :=
  match jLookup fields k with
  | some (.jstr s) => .ok s
  | _ => .error ()

/-- Optional string field with default (well-typed records only). -/
def jOptStr (fields : List (String × JsonVal)) (k : String) (dflt : String) :
    Except Unit String :=
  match jLookup fields k with
  | none => .ok dflt
  | some (.jstr s) => .ok s
  | some _ => .error ()

/-- Optional integer field (absent or `null` ↦ `none`). -/
def jOptIntOpt (fields : List (String × JsonVal)) (k : String) :
    Except Unit (Option Int) :=
  match jLookup fields k with
  | none => .ok none
  | some .jnull => .ok none
  | some (.jint n) => .ok (some n)
  | some _ => .error ()

/-- Optional numeric field (absent or `null` ↦ `none`; JSON ints and floats
both accepted, as in Python). -/
def jOptRatOpt (fields : List (String × JsonVal)) (k : String) :
    Except Unit (Option ℚ) :=
  match jLookup fields k with
  | none => .ok none
  | some .jnull => .ok none
  | some (.jint n) => .ok (some (n : ℚ))
  | some (.jnum q) => .ok (some q)
  | some _ => .error ()

/-- Optional string-or-null field (`date_added : Optional[str]`). -/
def jOptStrOpt (fields : List (String × JsonVal)) (k : String) :
    Except Unit (Option String) :=
  match jLookup fields k with
  | none => .ok none
  | some .jnull => .ok none
  | some (.jstr s) => .ok (some s)
  | some _ => .error ()

/-- `Book.from_dict(data)`, i.e. `cls(**data)`: `data` must be a JSON object
whose keys are all `Book.__init__` parameter names and must supply `title` and
`author`; anything else raises (`.error ()`).  Well-typed field values are
required (see `jReqStr`). -/
def from_dictJ (now : String) : JsonVal → Except Unit Book
  | .jobj fields =>
    if fields.all (fun kv => validKeys.contains kv.1) then
      match jReqStr fields "title", jReqStr fields "author",
            jOptStr fields "isbn" "", jOptStr fields "genre" "",
            jOptIntOpt fields "publication_year", jOptStr fields "publisher" "",
            jOptIntOpt fields "pages", jOptStr fields "status" "Unread",
            jOptStrOpt fields "date_added", jOptRatOpt fields "rating",
            jOptStr fields "notes" "" with
      | .ok t, .ok a, .ok i, .ok g, .ok py, .ok pub, .ok pg, .ok st, .ok da,
        .ok ra, .ok no =>
        .ok (Book.init now t a i g py pub pg st da ra no)
      | _, _, _, _, _, _, _, _, _, _, _ => .error ()
    else .error ()
  | _ => .error ()

/-- Python iteration over the loaded document: a list yields its elements, a
dict yields its keys (strings), a string yields its one-character substrings,
anything else raises `TypeError`. -/
def iterElems : JsonVal → Except Unit (List JsonVal)
  | .jarr xs => .ok xs
  | .jobj kvs => .ok (kvs.map (fun kv => JsonVal.jstr kv.1))
  | .jstr s => .ok (s.data.map (fun c => JsonVal.jstr (String.mk [c])))
  | _ => .error ()

/-- `[Book.from_dict(book) for book in elems]`, left to right, first raise
aborts the comprehension. -/
def decodeList (now : String) : List JsonVal → Except Unit (List Book)
  | [] => .ok []
  | v :: rest =>
    match from_dictJ now v with
    | .error e => .error e
    | .ok b =>
      match decodeList now rest with
      | .error e => .error e
      | .ok bs => .ok (b :: bs)

/-- `self.books = [Book.from_dict(book) for book in books_data]`. -/
def decodeBooks (now : String) (v : JsonVal) : Except Unit (List Book) :=
  match iterElems v with
  | .ok elems => decodeList now elems
  | .error e => .error e

/-- Backing-file state: no file, JSON-unparsable bytes, or a parsed document. -/
inductive FileState where
  | absent
  | invalid
  | valid (v : JsonVal)

/-- What `load_library` reports through Streamlit on its non-raising paths. -/
inductive LoadSignal where
  | loaded (n : Nat)
  | noFile
  | decodeFailed
deriving DecidableEq

/-- `LibraryManager.load_library`: missing file and `JSONDecodeError` are the
only handled conditions (collection stays empty, a notice is shown); any other
exception from decoding a parsed document escapes uncaught (`.error ()`). -/
def load_library (now : String) : FileState → Except Unit (List Book × LoadSignal)
  | .absent => .ok ([], .noFile)
  | .invalid => .ok ([], .decodeFailed)
  | .valid v =>
    match decodeBooks now v with
    | .ok bs => .ok (bs, .loaded bs.length)
    | .error e => .error e

/-- A running `LibraryManager`: the in-memory collection plus the backing file. -/
structure Library where
  books : List Book
  file : FileState

/-- `save_library`: rewrite the whole file with `[b.to_dict() for b in books]`. -/
def save_library (L : Library) : Library :=
  { L with file := .valid (.jarr (L.books.map to_dictJ)) }

/-- `add_book`: append, then persist. -/
def add_book (L : Library) (b : Book) : Library :=
  save_library { L with books := L.books ++ [b] }

/-- Case-insensitive title comparison used by `remove_book` and
`get_book_by_title`. -/
def titleMatches (t : String) (b : Book) : Bool :=
  toLower b.title == toLower t

/-- `remove_book`: keep the non-matching books, then compare lengths; persist
and return `True` only if the collection shrank. -/
def remove_book (L : Library) (book_title : String) : Library × Bool :=
  let kept := L.books.filter (fun b => !titleMatches book_title b)
  if kept.length < L.books.length then
    (save_library { L with books := kept }, true)
  else
    (L, false)

/-- Index of the first case-insensitive title match (`get_book_by_title`
returns the aliased object; mutations through it are modelled by rewriting
this position). -/
def findIdxCI (t : String) : List Book → Option Nat
  | [] => none
  | b :: rest =>
    if titleMatches t b then some 0 else (findIdxCI t rest).map (· + 1)

/-- `get_book_by_title`: first case-insensitive title match, if any. -/
def get_book_by_title (t : String) (books : List Book) : Option Book :=
  books.find? (titleMatches t)

/-- Rewrite position `i` of a list (identity when out of range). -/
def updateAt (i : Nat) (f : Book → Book) : List Book → List Book
  | [] => []
  | b :: rest =>
    match i with
    | 0 => f b :: rest
    | j + 1 => b :: updateAt j f rest

/-- `update_book_status`: find first match, set its `status`, persist. -/
def update_book_status (L : Library) (title status : String) : Library × Bool :=
  match findIdxCI title L.books with
  | some i =>
    (save_library { L with books := updateAt i (fun b => { b with status := status }) L.books }, true)
  | none => (L, false)

/-- `rate_book`: reject out-of-range ratings before any lookup; otherwise set
the first match's `rating`, storing 0 as `None` ("unrated"), and persist. -/
def rate_book (L : Library) (title : String) (rating : ℚ) : Library × Bool :=
  if ¬(0 ≤ rating ∧ rating ≤ 5) then (L, false)
  else
    match findIdxCI title L.books with
    | some i =>
      let books' := updateAt i
        (fun b => { b with rating := if 0 < rating then some rating else none }) L.books
      (save_library { L with books := books' }, true)
    | none => (L, false)

/-- `add_notes`: find first match, set its `notes`, persist. -/
def add_notes (L : Library) (title notes : String) : Library × Bool :=
  match findIdxCI title L.books with
  | some i =>
    (save_library { L with books := updateAt i (fun b => { b with notes := notes }) L.books }, true)
  | none => (L, false)

/-- The per-book predicate of `search_books`: case-insensitive substring match
against title OR author OR (only when `genre` is truthy, i.e. non-empty)
genre. -/
def searchMatch (q : String) (b : Book) : Bool :=
  strHasSub (toLower b.title) (toLower q) ||
  strHasSub (toLower b.author) (toLower q) ||
  (b.genre != "" && strHasSub (toLower b.genre) (toLower q))

/-- `search_books`: the loop appending each matching book is `List.filter`. -/
def search_books (q : String) (books : List Book) : List Book :=
  books.filter (searchMatch q)

/-- A dynamically-typed attribute value as `list_books` classifies it. -/
inductive AttrVal where
  | vstr (s : String)
  | vintOpt (n : Option Int)
  | vratOpt (q : Option ℚ)
deriving DecidableEq

/-- The string-valued attributes of `Book`, by name. -/
def stringAttrSel (f : String) : Option (Book → String) :=
  if f = "title" then some Book.title
  else if f = "author" then some Book.author
  else if f = "isbn" then some Book.isbn
  else if f = "genre" then some Book.genre
  else if f = "publisher" then some Book.publisher
  else if f = "status" then some Book.status
  else if f = "date_added" then some Book.date_added
  else if f = "notes" then some Book.notes
  else none

/-- `getattr(book, f)` restricted to the record's data attributes; `none`
models `hasattr` being false (methods, which `hasattr` would find but which
never pass the `isinstance(…, str)` test, are observationally identical to
absent here). -/
def getattrOpt (b : Book) (f : String) : Option AttrVal :=
  match stringAttrSel f with
  | some sel => some (.vstr (sel b))
  | none =>
    if f = "publication_year" then some (.vintOpt b.publication_year)
    else if f = "pages" then some (.vintOpt b.pages)
    else if f = "rating" then some (.vratOpt b.rating)
    else none

/-- The filtering loop of `list_books`: a book is kept when its attribute
exists, is a string, and equals `value` case-insensitively; evaluating
`value.lower()` with `value = None` raises `AttributeError` (`.error ()`),
aborting the loop. -/
def list_books_aux (f : String) (value : Option String) :
    List Book → Except Unit (List Book)
  | [] => .ok []
  | b :: rest =>
    match getattrOpt b f with
    | some (.vstr s) =>
      match value with
      | none => .error ()
      | some v =>
        match list_books_aux f value rest with
        | .ok r => .ok (if toLower s = toLower v then b :: r else r)
        | .error e => .error e
    | _ => list_books_aux f value rest

/-- `list_books`: `if not filter_by` (i.e. `None` or `""`) returns the whole
collection; otherwise run the filtering loop. -/
def list_books (books : List Book) (filter_by : Option String)
    (value : Option String) : Except Unit (List Book) :=
  match filter_by with
  | none => .ok books
  | some f => if f = "" then .ok books else list_books_aux f value books

/-- Python-dict lookup in an insertion-ordered association list. -/
def dictGet : List (String × Nat) → String → Option Nat
  | [], _ => none
  | kv :: rest, k => if kv.1 = k then some kv.2 else dictGet rest k

/-- `d.get(k, v)`. -/
def dictGetD (d : List (String × Nat)) (k : String) (v : Nat) : Nat :=
  (dictGet d k).getD v

/-- `k in d`. -/
def dictMem (d : List (String × Nat)) (k : String) : Prop :=
  (dictGet d k).isSome

/-- `d[k] = v`: overwrite in place if present, else append (Python dicts keep
insertion order). -/
def dictSet : List (String × Nat) → String → Nat → List (String × Nat)
  | [], k, v => [(k, v)]
  | kv :: rest, k, v =>
    if kv.1 = k then (k, v) :: rest else kv :: dictSet rest k v

/-- `d[k] = d.get(k, 0) + 1`. -/
def dictIncr (d : List (String × Nat)) (k : String) : List (String × Nat) :=
  dictSet d k (dictGetD d k 0 + 1)

/-- One statistics-loop update for one selector: `if sel(book): d[sel(book)] =
d.get(sel(book), 0) + 1` (empty string is falsy). -/
def bumpIf (sel : Book → String) (d : List (String × Nat)) (b : Book) :
    List (String × Nat) :=
  if sel b ≠ "" then dictIncr d (sel b) else d

/-- The result record of `get_statistics`. -/
structure Stats where
  total_books : Nat
  genres : List (String × Nat)
  statuses : List (String × Nat)
  authors : List (String × Nat)

/-- `get_statistics`: one pass over the collection, counting non-empty genres
and authors into initially-empty dicts and statuses into a dict pre-seeded
with the three fixed keys at 0. -/
def get_statistics (books : List Book) : Stats :=
  let acc := books.foldl
    (fun (acc : List (String × Nat) × List (String × Nat) × List (String × Nat)) b =>
      (bumpIf Book.genre acc.1 b, bumpIf Book.status acc.2.1 b,
       bumpIf Book.author acc.2.2 b))
    ([], [("Unread", 0), ("Reading", 0), ("Completed", 0)], [])
  { total_books := books.length, genres := acc.1, statuses := acc.2.1,
    authors := acc.2.2 }

/-- Per-selector view of the statistics loop: folding one dict over the
collection. -/
def tally (sel : Book → String) (d : List (String × Nat)) (books : List Book) :
    List (String × Nat) :=
  books.foldl (bumpIf sel) d

/-- Whether `getattr(book, f)` exists and is a string (the books on which
`list_books` would evaluate `value.lower()`). -/
def isStrAttr (b : Book) (f : String) : Bool :=
  match getattrOpt b f with
  | some (.vstr _) => true
  | _ => false

/-- Repeated `add_book`, left to right. -/
def addAll (L : Library) (bs : List Book) : Library :=
  bs.foldl add_book L

/-- Fixed current-date string used for concrete instances. -/
def now0 : String := "2024-01-01"

/-- Concrete sample book. -/
def dune : Book :=
  ⟨"Dune", "Frank Herbert", "", "Sci-Fi", some 1965, "", some 412, "Unread",
   "2024-01-01", none, ""⟩

/-- Concrete sample book with a rating. -/
def gatsby : Book :=
  ⟨"The Great Gatsby", "F. Scott Fitzgerald", "", "Fiction", some 1925,
   "Scribner", some 180, "Reading", "2024-01-02", some (9 / 2), "classic"⟩

/-- Concrete sample book, same genre as `gatsby` (spec statistics scenario). -/
def mockingbird : Book :=
  ⟨"To Kill a Mockingbird", "Harper Lee", "", "Fiction", some 1960,
   "HarperCollins", some 281, "Completed", "2024-01-03", some 5, ""⟩

/-- Two books sharing a title up to case, to exercise duplicate-title
behaviour. -/
def alphaFirst : Book :=
  ⟨"Alpha", "Author One", "", "", none, "", none, "Unread", "2024-01-04",
   none, ""⟩

/-- Second duplicate-titled book. -/
def alphaSecond : Book :=
  ⟨"ALPHA", "Author Two", "", "", none, "", none, "Reading", "2024-01-05",
   none, ""⟩

/-- Concrete running library. -/
def demoLib : Library := ⟨[dune, gatsby], .absent⟩

/-- A caller-constructed book carrying a rating of exactly 0 (as
`Book.__init__` stores it: verbatim, not normalized). -/
def zeroRatedBook : Book :=
  Book.init now0 "Zero Stars" "Nobody" "" "" none "" none "Unread" none
    (some 0) ""

/-- Concrete three-book collection from the spec statistics scenario. -/
def demoBooks3 : List Book := [gatsby, mockingbird, dune]

/-- Decidable equality for exception-carrying results, so concrete outcomes
can be settled by `decide`. -/
instance {ε α : Type} [DecidableEq ε] [DecidableEq α] : DecidableEq (Except ε α)
  | .error e, .error f =>
    if h : e = f then .isTrue (by rw [h]) else
      .isFalse (by intro c; injection c; contradiction)
  | .error _, .ok _ => .isFalse (by intro c; exact Except.noConfusion c)
  | .ok _, .error _ => .isFalse (by intro c; exact Except.noConfusion c)
  | .ok a, .ok b =>
    if h : a = b then .isTrue (by rw [h]) else
      .isFalse (by intro c; injection c; contradiction)

/-- The empty needle is a leading segment of everything. -/
theorem listStartsWith_nil (hay : List Char) : listStartsWith hay [] = true := by
  cases hay <;> rfl

/-- The empty needle occurs in every haystack. -/
theorem listHasSub_nil (hay : List Char) : listHasSub hay [] = true := by
  cases hay <;> simp [listHasSub, listStartsWith_nil]

/-- The empty query matches every book (its title clause is vacuous). -/
theorem searchMatch_empty (b : Book) : searchMatch "" b = true := by
  have h : toLower "" = "" := rfl
  simp [searchMatch, h, strHasSub, listHasSub_nil]

/-- `updateAt` preserves length. -/
theorem updateAt_length (l : List Book) (i : Nat) (f : Book → Book) :
    (updateAt i f l).length = l.length := by
  induction l generalizing i with
  | nil => simp [updateAt]
  | cons b rest ih =>
    cases i with
    | zero => simp [updateAt]
    | succ j => simp [updateAt, ih]

/-- `updateAt` leaves other positions unchanged. -/
theorem updateAt_getElem?_ne (l : List Book) (i : Nat) (f : Book → Book)
    (j : Nat) (h : j ≠ i) : (updateAt i f l)[j]? = l[j]? := by
  induction l generalizing i j with
  | nil => simp [updateAt]
  | cons b rest ih =>
    cases i with
    | zero =>
      cases j with
      | zero => exact absurd rfl h
      | succ j' => simp [updateAt]
    | succ i' =>
      cases j with
      | zero => simp [updateAt]
      | succ j' =>
        simp only [updateAt, List.getElem?_cons_succ]
        exact ih i' j' (fun c => h (by rw [c]))

/-- `updateAt` rewrites the targeted position. -/
theorem updateAt_getElem?_self (l : List Book) (i : Nat) (f : Book → Book)
    (b : Book) (h : l[i]? = some b) : (updateAt i f l)[i]? = some (f b) := by
  induction l generalizing i with
  | nil => simp at h
  | cons x rest ih =>
    cases i with
    | zero =>
      simp at h
      simp [updateAt, h]
    | succ i' =>
      simp at h
      simpa [updateAt] using ih i' h

/-- Claim C5: `search_books` returns, in collection order, exactly the books
whose title, author, or non-empty genre contains the query case-insensitively;
the empty query returns the whole collection, and a query matching nothing
returns the empty sequence.  (`search_books` is a pure function of the
collection: it cannot error or mutate.) -/
theorem C5_search_behavior (books : List Book) (q : String) :
    (search_books q books).Sublist books ∧
    (∀ b, b ∈ search_books q books ↔ b ∈ books ∧ searchMatch q b = true) ∧
    search_books "" books = books ∧
    ((∀ b ∈ books, searchMatch q b = false) → search_books q books = []) := by
  refine ⟨List.filter_sublist books, fun b => List.mem_filter, ?_, ?_⟩
  · exact List.filter_eq_self.mpr (fun b _ => searchMatch_empty b)
  · intro h
    exact List.filter_eq_nil_iff.mpr (fun b hb => by simp [h b hb])

/-- Claim C5 witness: the general theorem instantiated at the two-book demo
collection, with query "fitz" for the matching parts and the nowhere-matching
query "zzz" for the empty-result part. -/
theorem C5_search_behavior_witness :
    (search_books "fitz" [dune, gatsby]).Sublist [dune, gatsby] ∧
    (dune ∈ search_books "fitz" [dune, gatsby] ↔
      dune ∈ [dune, gatsby] ∧ searchMatch "fitz" dune = true) ∧
    search_books "" [dune, gatsby] = [dune, gatsby] ∧
    search_books "zzz" [dune, gatsby] = [] :=
  ⟨(C5_search_behavior [dune, gatsby] "fitz").1,
   (C5_search_behavior [dune, gatsby] "fitz").2.1 dune,
   (C5_search_behavior [dune, gatsby] "fitz").2.2.1,
   (C5_search_behavior [dune, gatsby] "zzz").2.2.2 (by decide)⟩

/-- Claim C9: every `add_book` appends to the end of the collection and then
persists the whole collection; hence any sequence of adds, starting from any
library, leaves the added books at the end in exactly the order added, and an
unfiltered `list_books` returns them that way. -/
theorem C9_addBook_order (L : Library) (bs : List Book) :
    (addAll L bs).books = L.books ++ bs ∧
    list_books (addAll L bs).books none none = .ok (L.books ++ bs) ∧
    (∀ b, add_book L b =
      ⟨L.books ++ [b], .valid (.jarr ((L.books ++ [b]).map to_dictJ))⟩) := by
  refine ⟨?_, ?_, fun b => rfl⟩
  · induction bs generalizing L with
    | nil => simp [addAll]
    | cons b rest ih =>
      have : addAll L (b :: rest) = addAll (add_book L b) rest := rfl
      rw [this, ih]
      simp [add_book, save_library]
  · have h : (addAll L bs).books = L.books ++ bs := by
      induction bs generalizing L with
      | nil => simp [addAll]
      | cons b rest ih =>
        have : addAll L (b :: rest) = addAll (add_book L b) rest := rfl
        rw [this, ih]
        simp [add_book, save_library]
    rw [list_books, h]

/-- Claim C1 counterexample: with two books titled "Alpha"/"ALPHA",
`remove_book "alpha"` empties the collection — the later duplicate-titled book
does NOT remain, contradicting "removes exactly the first match". -/
theorem C1_remove_counterexample :
    (remove_book ⟨[alphaFirst, alphaSecond], .absent⟩ "alpha").1.books = [] ∧
    (remove_book ⟨[alphaFirst, alphaSecond], .absent⟩ "alpha").1.books ≠
      [alphaSecond] := by
  constructor
  · rfl
  · intro h
    rw [show (remove_book ⟨[alphaFirst, alphaSecond], .absent⟩ "alpha").1.books
        = [] from rfl] at h
    exact List.noConfusion h

/-- Claim C1 (amended): `remove_book` removes EVERY book whose title matches
case-insensitively (duplicate-titled books are removed together); it returns
`true` and persists exactly when at least one match existed, and returns
`false` with the collection and backing file untouched otherwise. -/
theorem C1_remove_amended (L : Library) (t : String) :
    remove_book L t =
      if L.books.any (titleMatches t) then
        (save_library ⟨L.books.filter (fun b => !titleMatches t b), L.file⟩, true)
      else (L, false) := by
  by_cases h : L.books.any (titleMatches t)
  · rw [if_pos h]
    have hlt : (L.books.filter (fun b => !titleMatches t b)).length <
        L.books.length := by
      rw [List.length_filter_lt_length_iff_exists]
      obtain ⟨x, hx, hp⟩ := List.any_eq_true.mp h
      exact ⟨x, hx, by simp [hp]⟩
    simp [remove_book, hlt]
  · rw [if_neg h]
    simp only [List.any_eq_true, not_exists, not_and] at h
    have hnlt : ¬ (L.books.filter (fun b => !titleMatches t b)).length <
        L.books.length := by
      rw [List.length_filter_lt_length_iff_exists]
      rintro ⟨x, hx, hc⟩
      simp at hc
      exact h x hx hc
    simp [remove_book, hnlt]

/-- Claim C4 counterexample: the persisted document `[1]` is valid JSON but
not well-formed book data; `load_library` raises an uncaught error
(`Book.from_dict(1)` is a `TypeError`) instead of recovering with an empty
collection and a non-fatal signal. -/
theorem C4_load_counterexample :
    load_library now0 (.valid (.jarr [.jint 1])) = .error () ∧
    load_library now0 (.valid (.jarr [.jint 1])) ≠ .ok ([], .decodeFailed) := by
  constructor
  · rfl
  · intro h
    rw [show load_library now0 (.valid (.jarr [.jint 1])) = .error ()
        from rfl] at h
    exact Except.noConfusion h

/-- Claim C4 (amended): a missing storage location yields an empty collection
and is not an error; content that fails JSON parsing yields an empty
collection with a non-fatal load-failed signal and a usable store; but
persisted content that parses as JSON and does not decode to a sequence of
well-formed book records raises an uncaught error instead of recovering. -/
theorem C4_load_amended (now : String) :
    load_library now .absent = .ok ([], .noFile) ∧
    load_library now .invalid = .ok ([], .decodeFailed) ∧
    (∀ v bs, decodeBooks now v = .ok bs →
      load_library now (.valid v) = .ok (bs, .loaded bs.length)) ∧
    (∀ v, decodeBooks now v = .error () →
      load_library now (.valid v) = .error ()) := by
  refine ⟨rfl, rfl, ?_, ?_⟩
  · intro v bs h
    simp [load_library, h]
  · intro v h
    simp [load_library, h]

/-- Claim C4 witness: the amended theorem at concrete file states, including
an empty JSON list (decodes fine) and a JSON `null` (fatal). -/
theorem C4_load_amended_witness :
    load_library now0 .absent = .ok ([], .noFile) ∧
    load_library now0 .invalid = .ok ([], .decodeFailed) ∧
    load_library now0 (.valid (.jarr [])) = .ok ([], .loaded 0) ∧
    load_library now0 (.valid .jnull) = .error () :=
  ⟨(C4_load_amended now0).1, (C4_load_amended now0).2.1,
   (C4_load_amended now0).2.2.1 (.jarr []) [] rfl,
   (C4_load_amended now0).2.2.2 .jnull rfl⟩

/-- Per-book round trip: `Book.from_dict(book.to_dict())` rebuilds the same
book, given the invariant (established by `Book.__init__` with a non-empty
current-date string) that `date_added` is non-empty. -/
theorem from_to_dictJ (now : String) (b : Book) (h : b.date_added ≠ "") :
    from_dictJ now (to_dictJ b) = .ok b := by
  obtain ⟨t, a, i, g, py, pub, pg, st, da, ra, no⟩ := b
  simp only at h
  cases py <;> cases pg <;> cases ra <;>
    simp [from_dictJ, to_dictJ, validKeys, jReqStr, jOptStr, jOptIntOpt,
      jOptRatOpt, jOptStrOpt, jLookup, Book.init, List.find?, h]

/-- List-level round trip of the save format. -/
theorem decodeList_to_dictJ (now : String) (books : List Book)
    (h : ∀ b ∈ books, b.date_added ≠ "") :
    decodeList now (books.map to_dictJ) = .ok books := by
  induction books with
  | nil => rfl
  | cons b rest ih =>
    simp [decodeList, from_to_dictJ now b (h b (by simp)),
      ih (fun x hx => h x (by simp [hx]))]

/-- Claim C2: saving and then constructing a fresh store against the same
file reproduces the in-memory collection exactly — same order and same field
values for every book — given the `Book.__init__` invariant that `date_added`
is non-empty.  (Exact equality is stronger than the claim's "deep-equal
modulo the rating-0 rule": no normalization difference arises at all.) -/
theorem C2_roundtrip (L : Library) (now : String)
    (h : ∀ b ∈ L.books, b.date_added ≠ "") :
    load_library now (save_library L).file =
      .ok (L.books, .loaded L.books.length) := by
  simp [save_library, load_library, decodeBooks, iterElems,
    decodeList_to_dictJ now L.books h]

/-- Claim C2 witness: the round trip at the concrete two-book library. -/
theorem C2_roundtrip_witness :
    load_library now0 (save_library demoLib).file =
      .ok (demoLib.books, .loaded demoLib.books.length) :=
  C2_roundtrip demoLib now0 (by decide)

/-- Claim C3 counterexample: a Book carrying rating 0 handed to `add_book` is
stored with rating 0, not as absent/unrated — `Book.__init__` and `add_book`
perform no normalization (only `rate_book` does). -/
theorem C3_rating_zero_counterexample :
    zeroRatedBook.rating = some 0 ∧
    (add_book ⟨[], .absent⟩ zeroRatedBook).books.map Book.rating = [some 0] ∧
    (add_book ⟨[], .absent⟩ zeroRatedBook).books.map Book.rating ≠ [none] := by
  refine ⟨rfl, rfl, ?_⟩
  decide

/-- Claim C3 (amended): `rate_book` returns `false` with no lookup, mutation,
or persistence when the rating is below 0 or above 5; when 0 ≤ r ≤ 5 and the
title is found it persists and returns `true`, storing r as absent ("unrated")
exactly when r = 0; but a Book passed to `add_book` is appended with its
rating field verbatim — a carried rating of exactly 0 is stored as 0, not as
absent. -/
theorem C3_rate_validation_amended :
    (∀ L t r, (r < 0 ∨ 5 < r) → rate_book L t r = (L, false)) ∧
    (∀ L t r i b, 0 ≤ r → r ≤ 5 → findIdxCI t L.books = some i →
      L.books[i]? = some b →
      (rate_book L t r).2 = true ∧
      (rate_book L t r).1.books[i]? =
        some { b with rating := if 0 < r then some r else none } ∧
      (rate_book L t r).1.file =
        .valid (.jarr ((rate_book L t r).1.books.map to_dictJ))) ∧
    (∀ L t i b, findIdxCI t L.books = some i → L.books[i]? = some b →
      (rate_book L t 0).1.books[i]? = some { b with rating := none }) ∧
    (∀ L b, (add_book L b).books = L.books ++ [b]) := by
  refine ⟨?_, ?_, ?_, fun L b => rfl⟩
  · intro L t r h
    have hc : ¬(0 ≤ r ∧ r ≤ 5) := by
      rintro ⟨h0, h5⟩
      rcases h with h | h
      · exact absurd h0 (not_le.mpr h)
      · exact absurd h5 (not_le.mpr h)
    simp [rate_book, hc]
  · intro L t r i b h0 h5 hi hb
    have e : rate_book L t r =
        (save_library ⟨updateAt i
          (fun x => { x with rating := if 0 < r then some r else none })
          L.books, L.file⟩, true) := by
      rw [rate_book, if_neg (not_not_intro ⟨h0, h5⟩)]
      simp [hi]
    rw [e]
    exact ⟨rfl, updateAt_getElem?_self L.books i _ b hb, rfl⟩
  · intro L t i b hi hb
    have e : rate_book L t 0 =
        (save_library ⟨updateAt i
          (fun x => { x with rating := none }) L.books, L.file⟩, true) := by
      rw [rate_book, if_neg (not_not_intro ⟨le_refl 0, by norm_num⟩)]
      simp [hi]
    rw [e]
    exact updateAt_getElem?_self L.books i _ b hb

/-- Claim C3 witness: the amended theorem at concrete inputs — rejecting
rating 6, accepting rating 3 on "dune" (case-insensitive hit), storing
rating 0 as absent, and appending verbatim. -/
theorem C3_rate_validation_amended_witness :
    rate_book demoLib "dune" 6 = (demoLib, false) ∧
    ((rate_book demoLib "dune" 3).2 = true ∧
      (rate_book demoLib "dune" 3).1.books[0]? =
        some { dune with rating := if (0 : ℚ) < 3 then some 3 else none } ∧
      (rate_book demoLib "dune" 3).1.file =
        .valid (.jarr ((rate_book demoLib "dune" 3).1.books.map to_dictJ))) ∧
    (rate_book demoLib "dune" 0).1.books[0]? =
      some { dune with rating := none } ∧
    (add_book demoLib gatsby).books = demoLib.books ++ [gatsby] :=
  ⟨C3_rate_validation_amended.1 demoLib "dune" 6 (Or.inr (by norm_num)),
   C3_rate_validation_amended.2.1 demoLib "dune" 3 0 dune (by norm_num)
     (by norm_num) (by decide) rfl,
   C3_rate_validation_amended.2.2.1 demoLib "dune" 0 dune (by decide) rfl,
   C3_rate_validation_amended.2.2.2 demoLib gatsby⟩

/-- Claim C8 counterexample: "Dune" is present (first match at index 0), yet
`rate_book` with the out-of-range rating 6 returns `false` and changes
nothing — the claim's "when a match exists, [rate] … persists and returns
true" does not hold unconditionally. -/
theorem C8_rate_range_counterexample :
    findIdxCI "Dune" demoLib.books = some 0 ∧
    rate_book demoLib "Dune" 6 = (demoLib, false) ∧
    (rate_book demoLib "Dune" 6).2 ≠ true := by
  refine ⟨by decide, ?_, ?_⟩
  · rw [rate_book, if_pos ?_]
    rintro ⟨-, h5⟩
    exact absurd h5 (by norm_num)
  · rw [rate_book, if_pos ?_]
    · decide
    · rintro ⟨-, h5⟩
      exact absurd h5 (by norm_num)

/-- Claim C8 (amended): when no book matches the title case-insensitively,
`update_book_status`, `rate_book`, and `add_notes` each return `false` with
the collection and backing file untouched; when a match exists (and, for
`rate_book`, provided 0 ≤ r ≤ 5 — out-of-range ratings return `false` with no
effect even on a match), each rewrites only the targeted field of the first
matching book, leaves every other position and the collection length
unchanged, persists, and returns `true`. -/
theorem C8_targeted_field_updates :
    (∀ L t s, findIdxCI t L.books = none → update_book_status L t s = (L, false)) ∧
    (∀ L t r, findIdxCI t L.books = none → rate_book L t r = (L, false)) ∧
    (∀ L t n, findIdxCI t L.books = none → add_notes L t n = (L, false)) ∧
    (∀ L t s i b, findIdxCI t L.books = some i → L.books[i]? = some b →
      (update_book_status L t s).2 = true ∧
      (update_book_status L t s).1.books.length = L.books.length ∧
      (∀ j, j ≠ i → (update_book_status L t s).1.books[j]? = L.books[j]?) ∧
      (update_book_status L t s).1.books[i]? = some { b with status := s } ∧
      (update_book_status L t s).1.file =
        .valid (.jarr ((update_book_status L t s).1.books.map to_dictJ))) ∧
    (∀ L t r i b, 0 ≤ r → r ≤ 5 → findIdxCI t L.books = some i →
      L.books[i]? = some b →
      (rate_book L t r).2 = true ∧
      (rate_book L t r).1.books.length = L.books.length ∧
      (∀ j, j ≠ i → (rate_book L t r).1.books[j]? = L.books[j]?) ∧
      (rate_book L t r).1.books[i]? =
        some { b with rating := if 0 < r then some r else none } ∧
      (rate_book L t r).1.file =
        .valid (.jarr ((rate_book L t r).1.books.map to_dictJ))) ∧
    (∀ L t n i b, findIdxCI t L.books = some i → L.books[i]? = some b →
      (add_notes L t n).2 = true ∧
      (add_notes L t n).1.books.length = L.books.length ∧
      (∀ j, j ≠ i → (add_notes L t n).1.books[j]? = L.books[j]?) ∧
      (add_notes L t n).1.books[i]? = some { b with notes := n } ∧
      (add_notes L t n).1.file =
        .valid (.jarr ((add_notes L t n).1.books.map to_dictJ))) := by
  refine ⟨?_, ?_, ?_, ?_, ?_, ?_⟩
  · intro L t s h
    simp [update_book_status, h]
  · intro L t r h
    by_cases hr : 0 ≤ r ∧ r ≤ 5
    · rw [rate_book, if_neg (not_not_intro hr)]
      simp [h]
    · rw [rate_book, if_pos hr]
  · intro L t n h
    simp [add_notes, h]
  · intro L t s i b hi hb
    have e : update_book_status L t s =
        (save_library ⟨updateAt i
          (fun x => { x with status := s }) L.books, L.file⟩, true) := by
      simp [update_book_status, hi]
    rw [e]
    exact ⟨rfl, updateAt_length L.books i _,
      fun j hj => updateAt_getElem?_ne L.books i _ j hj,
      updateAt_getElem?_self L.books i _ b hb, rfl⟩
  · intro L t r i b h0 h5 hi hb
    have e : rate_book L t r =
        (save_library ⟨updateAt i
          (fun x => { x with rating := if 0 < r then some r else none })
          L.books, L.file⟩, true) := by
      rw [rate_book, if_neg (not_not_intro ⟨h0, h5⟩)]
      simp [hi]
    rw [e]
    exact ⟨rfl, updateAt_length L.books i _,
      fun j hj => updateAt_getElem?_ne L.books i _ j hj,
      updateAt_getElem?_self L.books i _ b hb, rfl⟩
  · intro L t n i b hi hb
    have e : add_notes L t n =
        (save_library ⟨updateAt i
          (fun x => { x with notes := n }) L.books, L.file⟩, true) := by
      simp [add_notes, hi]
    rw [e]
    exact ⟨rfl, updateAt_length L.books i _,
      fun j hj => updateAt_getElem?_ne L.books i _ j hj,
      updateAt_getElem?_self L.books i _ b hb, rfl⟩

/-- Claim C8 witness: the amended theorem at the concrete two-book library —
misses for a missing title, hits for "dune" with the frame conditions
instantiated at position 1. -/
theorem C8_targeted_field_updates_witness :
    update_book_status demoLib "missing" "Reading" = (demoLib, false) ∧
    rate_book demoLib "missing" 3 = (demoLib, false) ∧
    add_notes demoLib "missing" "hi" = (demoLib, false) ∧
    ((update_book_status demoLib "dune" "Reading").2 = true ∧
      (update_book_status demoLib "dune" "Reading").1.books.length =
        demoLib.books.length ∧
      (update_book_status demoLib "dune" "Reading").1.books[1]? =
        demoLib.books[1]? ∧
      (update_book_status demoLib "dune" "Reading").1.books[0]? =
        some { dune with status := "Reading" }) ∧
    ((rate_book demoLib "dune" 3).2 = true ∧
      (rate_book demoLib "dune" 3).1.books[1]? = demoLib.books[1]?) ∧
    ((add_notes demoLib "dune" "wow").2 = true ∧
      (add_notes demoLib "dune" "wow").1.books[0]? =
        some { dune with notes := "wow" }) := by
  refine ⟨C8_targeted_field_updates.1 demoLib "missing" "Reading" (by decide),
    C8_targeted_field_updates.2.1 demoLib "missing" 3 (by decide),
    C8_targeted_field_updates.2.2.1 demoLib "missing" "hi" (by decide),
    ?_, ?_, ?_⟩
  · have h := C8_targeted_field_updates.2.2.2.1 demoLib "dune" "Reading" 0 dune
      (by decide) rfl
    exact ⟨h.1, h.2.1, h.2.2.1 1 (by decide), h.2.2.2.1⟩
  · have h := C8_targeted_field_updates.2.2.2.2.1 demoLib "dune" 3 0 dune
      (by norm_num) (by norm_num) (by decide) rfl
    exact ⟨h.1, h.2.2.1 1 (by decide)⟩
  · have h := C8_targeted_field_updates.2.2.2.2.2 demoLib "dune" "wow" 0 dune
      (by decide) rfl
    exact ⟨h.1, h.2.2.2.1⟩

/-- A field with a string selector reads back as that string attribute. -/
theorem getattrOpt_of_sel (b : Book) (f : String) (sel : Book → String)
    (h : stringAttrSel f = some sel) : getattrOpt b f = some (.vstr (sel b)) := by
  simp [getattrOpt, h]

/-- A name outside the record's attributes has no attribute value
(`hasattr` fails). -/
theorem getattrOpt_eq_none (b : Book) (f : String) (h : f ∉ validKeys) :
    getattrOpt b f = none := by
  simp [validKeys] at h
  obtain ⟨h1, h2, h3, h4, h5, h6, h7, h8, h9, h10, h11⟩ := h
  simp [getattrOpt, stringAttrSel, h1, h2, h3, h4, h5, h6, h7, h8, h9, h10, h11]

/-- When no book's `f` attribute is a string, the filtering loop keeps
nothing and cannot error (the `isinstance` guard short-circuits before
`value.lower()`). -/
theorem list_books_aux_nonstr (f : String) (v : Option String)
    (books : List Book) (h : ∀ b ∈ books, isStrAttr b f = false) :
    list_books_aux f v books = .ok [] := by
  induction books with
  | nil => rfl
  | cons b rest ih =>
    have hb := h b (by simp)
    have hrest := ih (fun x hx => h x (by simp [hx]))
    cases hg : getattrOpt b f with
    | none => simp [list_books_aux, hg, hrest]
    | some a =>
      cases a with
      | vstr s => simp [isStrAttr, hg] at hb
      | vintOpt n => simp [list_books_aux, hg, hrest]
      | vratOpt q => simp [list_books_aux, hg, hrest]

/-- With a string-valued filter field and a supplied value, the loop is a
filter by case-insensitive equality on that attribute. -/
theorem list_books_aux_str (f : String) (sel : Book → String) (v : String)
    (hsel : stringAttrSel f = some sel) (books : List Book) :
    list_books_aux f (some v) books =
      .ok (books.filter (fun b => toLower (sel b) == toLower v)) := by
  induction books with
  | nil => rfl
  | cons b rest ih =>
    by_cases hval : toLower (sel b) = toLower v
    · simp [list_books_aux, getattrOpt_of_sel b f sel hsel, ih,
        List.filter_cons, hval]
    · simp [list_books_aux, getattrOpt_of_sel b f sel hsel, ih,
        List.filter_cons, hval]

/-- When some book's `f` attribute is a string and no value was supplied, the
loop raises (`None.lower()` is an `AttributeError`). -/
theorem list_books_aux_none_value (f : String) (books : List Book)
    (h : books.any (fun b => isStrAttr b f) = true) :
    list_books_aux f none books = .error () := by
  induction books with
  | nil => simp at h
  | cons b rest ih =>
    rcases hg : getattrOpt b f with - | a
    · have hb : isStrAttr b f = false := by simp [isStrAttr, hg]
      simp [List.any_cons, hb] at h
      simp [list_books_aux, hg, ih (List.any_eq_true.mpr h)]
    · cases a with
      | vstr s => simp [list_books_aux, hg]
      | vintOpt n =>
        have hb : isStrAttr b f = false := by simp [isStrAttr, hg]
        simp [List.any_cons, hb] at h
        simp [list_books_aux, hg, ih (List.any_eq_true.mpr h)]
      | vratOpt q =>
        have hb : isStrAttr b f = false := by simp [isStrAttr, hg]
        simp [List.any_cons, hb] at h
        simp [list_books_aux, hg, ih (List.any_eq_true.mpr h)]

/-- With a supplied value the filtering loop always returns (never raises). -/
theorem list_books_aux_some_total (f v : String) (books : List Book) :
    ∃ r, list_books_aux f (some v) books = .ok r := by
  induction books with
  | nil => exact ⟨[], rfl⟩
  | cons b rest ih =>
    obtain ⟨r, hr⟩ := ih
    rcases hg : getattrOpt b f with - | a
    · exact ⟨r, by simp [list_books_aux, hg, hr]⟩
    · cases a with
      | vstr s =>
        exact ⟨if toLower s = toLower v then b :: r else r,
          by simp [list_books_aux, hg, hr]⟩
      | vintOpt n => exact ⟨r, by simp [list_books_aux, hg, hr]⟩
      | vratOpt q => exact ⟨r, by simp [list_books_aux, hg, hr]⟩

/-- Claim C6 counterexample: the empty string is not among the record's
attributes, yet supplying it as the filter field returns the FULL collection
(Python's `if not filter_by` treats `""` as "no filter"), not the empty
result the claim assigns to unknown filter fields. -/
theorem C6_empty_field_counterexample :
    list_books [dune] (some "") (some "zzz") = .ok [dune] ∧
    list_books [dune] (some "") (some "zzz") ≠ .ok [] := by
  refine ⟨rfl, ?_⟩
  decide

/-- Claim C6 (amended): with no filter field — or with the empty-string
filter field, which `if not filter_by` treats as no filter and so returns the
full collection — `list_books` returns the whole collection in order; a
NON-EMPTY filter field that is unknown, or that names a non-string-valued
attribute (`publication_year`, `pages`, `rating`), yields an empty result
without error; a filter field naming a string-valued attribute returns, in
order, exactly the books whose attribute equals the value case-insensitively. -/
theorem C6_list_filter_amended :
    (∀ (books : List Book) v, list_books books none v = .ok books) ∧
    (∀ (books : List Book) v, list_books books (some "") v = .ok books) ∧
    (∀ (books : List Book) f v, f ≠ "" → f ∉ validKeys →
      list_books books (some f) v = .ok []) ∧
    (∀ (books : List Book) f v,
      f = "publication_year" ∨ f = "pages" ∨ f = "rating" →
      list_books books (some f) v = .ok []) ∧
    (∀ (books : List Book) f sel v, stringAttrSel f = some sel →
      list_books books (some f) (some v) =
        .ok (books.filter (fun b => toLower (sel b) == toLower v))) := by
  refine ⟨fun books v => rfl, fun books v => rfl, ?_, ?_, ?_⟩
  · intro books f v hne hmem
    rw [list_books, if_neg hne]
    exact list_books_aux_nonstr f v books
      (fun b _ => by simp [isStrAttr, getattrOpt_eq_none b f hmem])
  · intro books f v h
    have hne : f ≠ "" := by
      rcases h with rfl | rfl | rfl <;> decide
    rw [list_books, if_neg hne]
    refine list_books_aux_nonstr f v books (fun b _ => ?_)
    rcases h with rfl | rfl | rfl <;> rfl
  · intro books f sel v hsel
    have hne : f ≠ "" := by
      rintro rfl
      simp [stringAttrSel] at hsel
    rw [list_books, if_neg hne]
    exact list_books_aux_str f sel v hsel books

/-- Claim C6 witness: the amended theorem at concrete collections — no
filter, empty-string filter, the unknown field "bogus", the non-string field
"pages", and a genre filter hitting `gatsby` case-insensitively. -/
theorem C6_list_filter_amended_witness :
    list_books [dune] none (some "x") = .ok [dune] ∧
    list_books [dune] (some "") (some "x") = .ok [dune] ∧
    list_books [dune] (some "bogus") (some "x") = .ok [] ∧
    list_books [dune] (some "pages") (some "x") = .ok [] ∧
    list_books [dune, gatsby] (some "genre") (some "FICTION") =
      .ok ([dune, gatsby].filter
        (fun b => toLower b.genre == toLower "FICTION")) :=
  ⟨C6_list_filter_amended.1 [dune] (some "x"),
   C6_list_filter_amended.2.1 [dune] (some "x"),
   C6_list_filter_amended.2.2.1 [dune] "bogus" (some "x") (by decide)
     (by decide),
   C6_list_filter_amended.2.2.2.1 [dune] "pages" (some "x")
     (Or.inr (Or.inl rfl)),
   C6_list_filter_amended.2.2.2.2 [dune, gatsby] "genre" Book.genre "FICTION"
     rfl⟩

/-- Claim C10: whenever some book's attribute named by the supplied filter
field is a string, calling `list_books` with that field but no value raises
(`None.lower()` is an `AttributeError`) instead of returning; supplying a
string value restores totality — the call then always returns a sequence. -/
theorem C10_missing_value_partiality :
    (∀ (books : List Book) f, books.any (fun b => isStrAttr b f) = true →
      list_books books (some f) none = .error ()) ∧
    (∀ (books : List Book) fb v, ∃ r, list_books books fb (some v) = .ok r) := by
  constructor
  · intro books f h
    have hne : f ≠ "" := by
      rintro rfl
      obtain ⟨b, -, hb⟩ := List.any_eq_true.mp h
      simp [isStrAttr, getattrOpt, stringAttrSel] at hb
    rw [list_books, if_neg hne]
    exact list_books_aux_none_value f books h
  · intro books fb v
    match fb with
    | none => exact ⟨books, rfl⟩
    | some f =>
      by_cases hne : f = ""
      · exact ⟨books, by rw [list_books, if_pos hne]⟩
      · obtain ⟨r, hr⟩ := list_books_aux_some_total f v books
        exact ⟨r, by rw [list_books, if_neg hne, hr]⟩

/-- Claim C10 witness: with the book "Dune" present, filtering on "title"
without a value raises; the same filter with a value returns. -/
theorem C10_missing_value_partiality_witness :
    list_books [dune] (some "title") none = .error () ∧
    ∃ r, list_books [dune] (some "title") (some "dune") = .ok r :=
  ⟨C10_missing_value_partiality.1 [dune] "title" (by decide),
   C10_missing_value_partiality.2 [dune] (some "title") "dune"⟩

/-- Setting a key stores its value. -/
theorem dictGet_dictSet_self (d : List (String × Nat)) (k : String) (v : Nat) :
    dictGet (dictSet d k v) k = some v := by
  induction d with
  | nil => simp [dictGet, dictSet]
  | cons kv rest ih =>
    by_cases h : kv.1 = k
    · simp [dictSet, dictGet, h]
    · simp [dictSet, dictGet, h, ih]

/-- Setting a key leaves other keys' values unchanged. -/
theorem dictGet_dictSet_ne (d : List (String × Nat)) (k : String) (v : Nat)
    (q : String) (h : q ≠ k) : dictGet (dictSet d k v) q = dictGet d q := by
  induction d with
  | nil => simp [dictGet, dictSet, Ne.symm h]
  | cons kv rest ih =>
    by_cases hk : kv.1 = k
    · simp [dictSet, dictGet, hk, Ne.symm h, ih]
    · simp [dictSet, dictGet, hk, ih]

/-- Key membership after a set. -/
theorem dictMem_dictSet (d : List (String × Nat)) (k : String) (v : Nat)
    (q : String) : dictMem (dictSet d k v) q ↔ q = k ∨ dictMem d q := by
  by_cases h : q = k
  · subst h
    simp [dictMem, dictGet_dictSet_self]
  · rw [dictMem, dictGet_dictSet_ne d k v q h]
    simp [dictMem, h]

/-- Incrementing a key bumps its count by one. -/
theorem dictGetD_dictIncr_self (d : List (String × Nat)) (k : String) :
    dictGetD (dictIncr d k) k 0 = dictGetD d k 0 + 1 := by
  simp [dictIncr, dictGetD, dictGet_dictSet_self]

/-- Incrementing a key leaves other keys' counts unchanged. -/
theorem dictGetD_dictIncr_ne (d : List (String × Nat)) (k : String)
    (q : String) (h : q ≠ k) : dictGetD (dictIncr d k) q 0 = dictGetD d q 0 := by
  simp [dictIncr, dictGetD, dictGet_dictSet_ne d k _ q h]

/-- Key membership after an increment. -/
theorem dictMem_dictIncr (d : List (String × Nat)) (k : String) (q : String) :
    dictMem (dictIncr d k) q ↔ q = k ∨ dictMem d q :=
  dictMem_dictSet d k _ q

/-- The single statistics pass updates its three dicts independently. -/
theorem stats_fold_split (books : List Book) :
    ∀ g s a : List (String × Nat),
    books.foldl
      (fun (acc : List (String × Nat) × List (String × Nat) × List (String × Nat)) b =>
        (bumpIf Book.genre acc.1 b, bumpIf Book.status acc.2.1 b,
         bumpIf Book.author acc.2.2 b)) (g, s, a) =
      (tally Book.genre g books, tally Book.status s books,
       tally Book.author a books) := by
  induction books with
  | nil => intro g s a; rfl
  | cons b rest ih =>
    intro g s a
    rw [List.foldl_cons]
    exact ih (bumpIf Book.genre g b) (bumpIf Book.status s b)
      (bumpIf Book.author a b)

/-- `get_statistics` in terms of the per-selector folds. -/
theorem get_statistics_eq (books : List Book) :
    get_statistics books =
      ⟨books.length, tally Book.genre [] books,
       tally Book.status [("Unread", 0), ("Reading", 0), ("Completed", 0)] books,
       tally Book.author [] books⟩ := by
  simp [get_statistics, stats_fold_split]

/-- Folding the counting step tallies, for each non-empty key, exactly the
number of books whose selected field equals that key. -/
theorem tally_getD (sel : Book → String) (books : List Book) :
    ∀ d k, k ≠ "" → dictGetD (tally sel d books) k 0 =
      dictGetD d k 0 + books.countP (fun b => sel b == k) := by
  induction books with
  | nil => intro d k hk; simp [tally]
  | cons b rest ih =>
    intro d k hk
    have step : tally sel d (b :: rest) = tally sel (bumpIf sel d b) rest := rfl
    rw [step, ih (bumpIf sel d b) k hk, List.countP_cons]
    by_cases hs : sel b = k
    · have hne : sel b ≠ "" := by rw [hs]; exact hk
      rw [show bumpIf sel d b = dictIncr d (sel b) from by simp [bumpIf, hne],
        hs, dictGetD_dictIncr_self]
      simp [hs]
      omega
    · by_cases hne : sel b = ""
      · rw [show bumpIf sel d b = d from by simp [bumpIf, hne]]
        simp [hs]
      · rw [show bumpIf sel d b = dictIncr d (sel b) from by simp [bumpIf, hne],
          dictGetD_dictIncr_ne d (sel b) k (Ne.symm hs)]
        simp [hs]

/-- A non-empty key is present after the fold exactly when it was present
before or some book carries it. -/
theorem tally_mem (sel : Book → String) (books : List Book) :
    ∀ d k, k ≠ "" → (dictMem (tally sel d books) k ↔
      dictMem d k ∨ ∃ b ∈ books, sel b = k) := by
  induction books with
  | nil => intro d k hk; simp [tally]
  | cons b rest ih =>
    intro d k hk
    have step : tally sel d (b :: rest) = tally sel (bumpIf sel d b) rest := rfl
    rw [step, ih (bumpIf sel d b) k hk, List.exists_mem_cons_iff]
    by_cases hne : sel b = ""
    · have hbk : sel b ≠ k := by rw [hne]; exact Ne.symm hk
      rw [show bumpIf sel d b = d from by simp [bumpIf, hne]]
      simp [hbk]
    · rw [show bumpIf sel d b = dictIncr d (sel b) from by simp [bumpIf, hne],
        dictMem_dictIncr]
      rw [show (k = sel b) ↔ (sel b = k) from eq_comm]
      tauto

/-- Under the status invariant, the pre-seeded status dict keeps exactly its
three fixed keys, in order, each incremented per matching book. -/
theorem tally_status_fixed (books : List Book) :
    ∀ u r c : Nat,
    (∀ b ∈ books, b.status = "Unread" ∨ b.status = "Reading" ∨
      b.status = "Completed") →
    tally Book.status [("Unread", u), ("Reading", r), ("Completed", c)] books =
      [("Unread", u + books.countP (fun b => b.status == "Unread")),
       ("Reading", r + books.countP (fun b => b.status == "Reading")),
       ("Completed", c + books.countP (fun b => b.status == "Completed"))] := by
  induction books with
  | nil => intro u r c h; simp [tally]
  | cons b rest ih =>
    intro u r c h
    have hrest := fun x hx => h x (List.mem_cons_of_mem b hx)
    have step : tally Book.status [("Unread", u), ("Reading", r), ("Completed", c)]
        (b :: rest) = tally Book.status
          (bumpIf Book.status [("Unread", u), ("Reading", r), ("Completed", c)] b)
          rest := rfl
    rcases h b (by simp) with hs | hs | hs
    · rw [step, show bumpIf Book.status
          [("Unread", u), ("Reading", r), ("Completed", c)] b =
          [("Unread", u + 1), ("Reading", r), ("Completed", c)] from by
        simp [bumpIf, hs, dictIncr, dictGetD, dictGet, dictSet],
        ih (u + 1) r c hrest]
      simp [List.countP_cons, hs]
      omega
    · rw [step, show bumpIf Book.status
          [("Unread", u), ("Reading", r), ("Completed", c)] b =
          [("Unread", u), ("Reading", r + 1), ("Completed", c)] from by
        simp [bumpIf, hs, dictIncr, dictGetD, dictGet, dictSet],
        ih u (r + 1) c hrest]
      simp [List.countP_cons, hs]
      omega
    · rw [step, show bumpIf Book.status
          [("Unread", u), ("Reading", r), ("Completed", c)] b =
          [("Unread", u), ("Reading", r), ("Completed", c + 1)] from by
        simp [bumpIf, hs, dictIncr, dictGetD, dictGet, dictSet],
        ih u r (c + 1) hrest]
      simp [List.countP_cons, hs]
      omega

/-- Under the status invariant, the three status counts partition the
collection. -/
theorem statusCount_sum (books : List Book)
    (h : ∀ b ∈ books, b.status = "Unread" ∨ b.status = "Reading" ∨
      b.status = "Completed") :
    books.countP (fun b => b.status == "Unread") +
      books.countP (fun b => b.status == "Reading") +
      books.countP (fun b => b.status == "Completed") = books.length := by
  induction books with
  | nil => rfl
  | cons b rest ih =>
    have ih' := ih (fun x hx => h x (List.mem_cons_of_mem b hx))
    rcases h b (by simp) with hs | hs | hs <;>
      simp [List.countP_cons, hs] <;> omega

/-- Claim C7: on a collection satisfying the status invariant,
`get_statistics` reports the collection size as `total_books`; maps every
observed non-empty genre and author to its occurrence count (and contains no
other genre/author keys); and reports `statuses` as the fixed-key mapping over
exactly Unread/Reading/Completed, in that order, each counting its matching
books, the three counts summing to the collection size.  (`get_statistics` is
a pure function of the collection: it mutates nothing.) -/
theorem C7_statistics (books : List Book)
    (hinv : ∀ b ∈ books, b.status = "Unread" ∨ b.status = "Reading" ∨
      b.status = "Completed") :
    (get_statistics books).total_books = books.length ∧
    (∀ g, g ≠ "" → dictGetD (get_statistics books).genres g 0 =
      books.countP (fun b => b.genre == g)) ∧
    (∀ g, g ≠ "" → (dictMem (get_statistics books).genres g ↔
      ∃ b ∈ books, b.genre = g)) ∧
    (∀ a, a ≠ "" → dictGetD (get_statistics books).authors a 0 =
      books.countP (fun b => b.author == a)) ∧
    (∀ a, a ≠ "" → (dictMem (get_statistics books).authors a ↔
      ∃ b ∈ books, b.author = a)) ∧
    (get_statistics books).statuses =
      [("Unread", books.countP (fun b => b.status == "Unread")),
       ("Reading", books.countP (fun b => b.status == "Reading")),
       ("Completed", books.countP (fun b => b.status == "Completed"))] ∧
    books.countP (fun b => b.status == "Unread") +
      books.countP (fun b => b.status == "Reading") +
      books.countP (fun b => b.status == "Completed") = books.length := by
  rw [get_statistics_eq]
  refine ⟨rfl, ?_, ?_, ?_, ?_, ?_, statusCount_sum books hinv⟩
  · intro g hg
    simpa [dictGetD, dictGet] using tally_getD Book.genre books [] g hg
  · intro g hg
    simpa [dictMem, dictGet] using tally_mem Book.genre books [] g hg
  · intro a ha
    simpa [dictGetD, dictGet] using tally_getD Book.author books [] a ha
  · intro a ha
    simpa [dictMem, dictGet] using tally_mem Book.author books [] a ha
  · simpa using tally_status_fixed books 0 0 0 hinv

/-- Claim C7 witness: the statistics theorem at the concrete three-book
collection (genres Fiction, Fiction, Sci-Fi; statuses Reading, Completed,
Unread), instantiated at genre "Fiction" and author "Harper Lee". -/
theorem C7_statistics_witness :
    (get_statistics demoBooks3).total_books = demoBooks3.length ∧
    dictGetD (get_statistics demoBooks3).genres "Fiction" 0 =
      demoBooks3.countP (fun b => b.genre == "Fiction") ∧
    (dictMem (get_statistics demoBooks3).genres "Fiction" ↔
      ∃ b ∈ demoBooks3, b.genre = "Fiction") ∧
    dictGetD (get_statistics demoBooks3).authors "Harper Lee" 0 =
      demoBooks3.countP (fun b => b.author == "Harper Lee") ∧
    (get_statistics demoBooks3).statuses =
      [("Unread", demoBooks3.countP (fun b => b.status == "Unread")),
       ("Reading", demoBooks3.countP (fun b => b.status == "Reading")),
       ("Completed", demoBooks3.countP (fun b => b.status == "Completed"))] ∧
    demoBooks3.countP (fun b => b.status == "Unread") +
      demoBooks3.countP (fun b => b.status == "Reading") +
      demoBooks3.countP (fun b => b.status == "Completed") =
      demoBooks3.length := by
  have h := C7_statistics demoBooks3 (by decide)
  exact ⟨h.1, h.2.1 "Fiction" (by decide), h.2.2.1 "Fiction" (by decide),
    h.2.2.2.1 "Harper Lee" (by decide), h.2.2.2.2.2.1, h.2.2.2.2.2.2⟩
